import Mathlib

/-!
Shallow embedding of the persistence and caching layer of the book-tracking
backend (`api/database.py` and `api/services/cache.py`), together with proofs
about its cache-key derivation, cache expiry, and the two-table library store.

Conventions of the embedding:
* SQLite TEXT values are Lean `String`s; SQLite compares TEXT with the BINARY
  collation (memcmp of the UTF-8 bytes), which on UTF-8 agrees with
  code-point-lexicographic order, modelled by `sqliteTextLt`.
* Machine-level details (row ids) are `Nat`; SQL `NULL`-able columns are
  `Option`.
* Each database call opens one connection, runs its statements inside one
  implicit transaction and commits at the end; an error before the commit
  rolls the transaction back when the connection closes.  This is modelled by
  the `Stmt`/`Conn` runner below: the observable (committed) state changes
  only when the `commit` statement executes.
-/

namespace NeeReads

/-- Code-point lexicographic order on character lists (SQLite BINARY collation
on the UTF-8 encodings agrees with this order). -/
def charListLt : List Char → List Char → Bool
  | [], [] => false
  | [], _ :: _ => true
  | _ :: _, [] => false
  | a :: as, b :: bs =>
    if a.toNat < b.toNat then true
    else if a.toNat = b.toNat then charListLt as bs
    else false

/-- SQLite TEXT comparison `a < b` (BINARY collation). -/
def sqliteTextLt (a b : String) : Bool :=
  charListLt a.data b.data

/-- ASCII whitespace stripped by Python `str.strip()` (the further Unicode
whitespace code points stripped by Python never occur in any input considered
here). -/
def pyIsSpace (c : Char) : Bool :=
  c == ' ' || c == '\t' || c == '\n' || c == '\x0d' || c == '\x0b' || c == '\x0c'

/-- Python `str.strip()`: drop leading and trailing whitespace. -/
def pyStrip (s : List Char) : List Char :=
  ((s.dropWhile pyIsSpace).reverse.dropWhile pyIsSpace).reverse

/-- Python `str.lower()` on one character (ASCII range; all queries
considered here are ASCII). -/
def pyLowerChar (c : Char) : Char :=
  if 'A' ≤ c ∧ c ≤ 'Z' then Char.ofNat (c.toNat + 32) else c

/-- Python `str.lower()`. -/
def pyLower (s : List Char) : List Char :=
  s.map pyLowerChar

/-- `query.strip().lower()` from `generate_cache_key`. -/
def pyNormalize (q : String) : List Char :=
  pyLower (pyStrip q.data)

/-- Decimal digit character. -/
def digitChar (n : Nat) : Char :=
  Char.ofNat (48 + n)

/-- Digit extraction with explicit fuel; `fuel ≥ n` makes it total on `n`
(structural recursion keeps the definition kernel-reducible). -/
def natReprCoreAux : Nat → Nat → List Char
  | 0, _ => []
  | fuel + 1, n => if n = 0 then [] else natReprCoreAux fuel (n / 10) ++ [digitChar (n % 10)]

/-- Big-endian decimal digits of a natural number, empty on `0` (helper for
`natRepr`). -/
def natReprCore (n : Nat) : List Char :=
  natReprCoreAux n n

/-- Decimal rendering of a natural number, as Python `str` produces it. -/
def natRepr (n : Nat) : List Char :=
  if n = 0 then ['0'] else natReprCore n

/-- Decimal rendering of an integer, as Python `str`/f-strings produce it. -/
def intRepr (i : Int) : List Char :=
  if i < 0 then '-' :: natRepr i.natAbs else natRepr i.toNat

/-- Reads a digit list back into a number; left inverse of `natReprCore`. -/
def digitsVal (l : List Char) : Nat :=
  l.foldl (fun acc c => acc * 10 + (c.toNat - 48)) 0

/-! ### UTF-8 and SHA-256 (Python `key_string.encode()` and `hashlib.sha256`) -/

/-- UTF-8 encoding of one character, as a list of byte values. -/
def utf8Char (c : Char) : List Nat :=
  let n := c.toNat
  if n < 0x80 then [n]
  else if n < 0x800 then [0xC0 + n / 64, 0x80 + n % 64]
  else if n < 0x10000 then [0xE0 + n / 4096, 0x80 + n / 64 % 64, 0x80 + n % 64]
  else [0xF0 + n / 262144, 0x80 + n / 4096 % 64, 0x80 + n / 64 % 64, 0x80 + n % 64]

/-- UTF-8 encoding of a character list (`str.encode()` in Python). -/
def utf8Bytes (s : List Char) : List Nat :=
  (s.map utf8Char).flatten

/-- 32-bit word arithmetic: the modulus. -/
def M32 : Nat := 4294967296

/-- Right rotation of a 32-bit word. -/
def rotr32 (x n : Nat) : Nat :=
  x / 2 ^ n + x % 2 ^ n * 2 ^ (32 - n)

/-- SHA-256 small sigma 0. -/
def ssig0 (x : Nat) : Nat := (rotr32 x 7) ^^^ (rotr32 x 18) ^^^ (x / 8)

/-- SHA-256 small sigma 1. -/
def ssig1 (x : Nat) : Nat := (rotr32 x 17) ^^^ (rotr32 x 19) ^^^ (x / 1024)

/-- SHA-256 big sigma 0. -/
def bsig0 (x : Nat) : Nat := (rotr32 x 2) ^^^ (rotr32 x 13) ^^^ (rotr32 x 22)

/-- SHA-256 big sigma 1. -/
def bsig1 (x : Nat) : Nat := (rotr32 x 6) ^^^ (rotr32 x 11) ^^^ (rotr32 x 25)

/-- SHA-256 choose function. -/
def shaCh (e f g : Nat) : Nat := (e &&& f) ^^^ ((e ^^^ 0xFFFFFFFF) &&& g)

/-- SHA-256 majority function. -/
def shaMaj (a b c : Nat) : Nat := (a &&& b) ^^^ (a &&& c) ^^^ (b &&& c)

/-- SHA-256 round constants (FIPS 180-4, written in decimal). -/
def shaK : List Nat :=
  [1116352408, 1899447441, 3049323471, 3921009573, 961987163,
   1508970993, 2453635748, 2870763221, 3624381080, 310598401,
   607225278, 1426881987, 1925078388, 2162078206, 2614888103,
   3248222580, 3835390401, 4022224774, 264347078, 604807628,
   770255983, 1249150122, 1555081692, 1996064986, 2554220882,
   2821834349, 2952996808, 3210313671, 3336571891, 3584528711,
   113926993, 338241895, 666307205, 773529912, 1294757372,
   1396182291, 1695183700, 1986661051, 2177026350, 2456956037,
   2730485921, 2820302411, 3259730800, 3345764771, 3516065817,
   3600352804, 4094571909, 275423344, 430227734, 506948616,
   659060556, 883997877, 958139571, 1322822218, 1537002063,
   1747873779, 1955562222, 2024104815, 2227730452, 2361852424,
   2428436474, 2756734187, 3204031479, 3329325298]

/-- SHA-256 initial hash state (FIPS 180-4, written in decimal). -/
def shaH0 : List Nat :=
  [1779033703, 3144134277, 1013904242, 2773480762, 1359893119,
   2600822924, 528734635, 1541459225]

/-- SHA-256 message padding: append `0x80`, zeros, then the 64-bit big-endian
bit length, reaching a multiple of 64 bytes. -/
def shaPad (msg : List Nat) : List Nat :=
  let L := msg.length
  let z := (119 - L % 64) % 64
  msg ++ [0x80] ++ List.replicate z 0 ++
    [7, 6, 5, 4, 3, 2, 1, 0].map (fun i => 8 * L / 2 ^ (8 * i) % 256)

/-- The 16 big-endian 32-bit words of one 64-byte block. -/
def blockWords (blk : List Nat) : List Nat :=
  (List.range 16).map (fun i =>
    blk.getD (4 * i) 0 * 0x1000000 + blk.getD (4 * i + 1) 0 * 0x10000 +
      blk.getD (4 * i + 2) 0 * 0x100 + blk.getD (4 * i + 3) 0)

/-- Extend 16 message words to the 64-word schedule. -/
def extendWords (w : List Nat) : List Nat :=
  (List.range 48).foldl
    (fun ws _ =>
      ws ++ [(ws.getD (ws.length - 16) 0 + ssig0 (ws.getD (ws.length - 15) 0) +
        ws.getD (ws.length - 7) 0 + ssig1 (ws.getD (ws.length - 2) 0)) % M32])
    w

/-- One SHA-256 round on the working state `[a,b,c,d,e,f,g,h]`. -/
def shaRound (st : List Nat) (kw : Nat × Nat) : List Nat :=
  let a := st.getD 0 0
  let b := st.getD 1 0
  let c := st.getD 2 0
  let d := st.getD 3 0
  let e := st.getD 4 0
  let f := st.getD 5 0
  let g := st.getD 6 0
  let h := st.getD 7 0
  let t1 := (h + bsig1 e + shaCh e f g + kw.1 + kw.2) % M32
  let t2 := (bsig0 a + shaMaj a b c) % M32
  [(t1 + t2) % M32, a, b, c, (d + t1) % M32, e, f, g]

/-- Compress one 64-byte block into the hash state. -/
def shaCompress (H : List Nat) (blk : List Nat) : List Nat :=
  let ws := extendWords (blockWords blk)
  let st := (shaK.zip ws).foldl shaRound H
  List.zipWith (fun x y => (x + y) % M32) H st

/-- SHA-256 digest of a byte list, as the list of 8 final 32-bit words. -/
def sha256Words (msg : List Nat) : List Nat :=
  let p := shaPad msg
  ((List.range (p.length / 64)).map (fun i => (p.drop (64 * i)).take 64)).foldl shaCompress shaH0

/-- Lowercase hexadecimal digit. -/
def hexDigitChar (n : Nat) : Char :=
  if n < 10 then Char.ofNat (48 + n) else Char.ofNat (87 + n)

/-- Fixed-width lowercase hexadecimal rendering. -/
def hexPad : Nat → Nat → List Char
  | 0, _ => []
  | k + 1, n => hexPad k (n / 16) ++ [hexDigitChar (n % 16)]

/-- `hashlib.sha256(msg).hexdigest()`: 64 lowercase hex characters. -/
def sha256Hex (msg : List Nat) : String :=
  ⟨((sha256Words msg).map (hexPad 8)).flatten⟩

/-! ### `generate_cache_key` (`api/services/cache.py`) -/

/-- The f-string `"\x7bnormalized_query\x7d:\x7bpage\x7d:\x7blimit\x7d"` hashed by
`generate_cache_key`, as a character list. -/
def cacheKeyChars (query : String) (page limit : Int) : List Char :=
  pyNormalize query ++ ':' :: (intRepr page ++ ':' :: intRepr limit)

/-- `generate_cache_key(query, page, limit)`:
`hashlib.sha256(key_string.encode()).hexdigest()` of the normalized key
string. -/
def generate_cache_key (query : String) (page limit : Int) : String :=
  sha256Hex (utf8Bytes (cacheKeyChars query page limit))

/-- The eight digest words of a message, packed into a finite type: the
SHA-256 digest space. -/
def digestTuple (msg : List Nat) :
    Fin M32 × Fin M32 × Fin M32 × Fin M32 × Fin M32 × Fin M32 × Fin M32 × Fin M32 :=
  let w := fun i => (sha256Words msg).getD i 0
  have hM : ∀ i, w i % M32 < M32 := fun i => Nat.mod_lt _ (by norm_num [M32])
  (⟨w 0 % M32, hM 0⟩, ⟨w 1 % M32, hM 1⟩, ⟨w 2 % M32, hM 2⟩, ⟨w 3 % M32, hM 3⟩,
   ⟨w 4 % M32, hM 4⟩, ⟨w 5 % M32, hM 5⟩, ⟨w 6 % M32, hM 6⟩, ⟨w 7 % M32, hM 7⟩)

/-! ### Timestamps

The cache writes expiry timestamps with Python's
`datetime.now(timezone.utc).isoformat()` and compares them in SQL against
`datetime('now')`; both renderings are modelled exactly, over a calendar
datetime record. -/

/-- A UTC calendar datetime (the relevant fields of Python's `datetime`). -/
structure PyDateTime where
  year : Nat
  month : Nat
  day : Nat
  hour : Nat
  minute : Nat
  second : Nat
  micro : Nat
deriving DecidableEq, Repr

/-- Zero-padded fixed-width decimal rendering. -/
def padNat (w n : Nat) : List Char :=
  List.replicate (w - (natRepr n).length) '0' ++ natRepr n

/-- SQLite's `datetime('now')` rendering: `YYYY-MM-DD HH:MM:SS`. -/
def sqliteDtStr (t : PyDateTime) : String :=
  ⟨padNat 4 t.year ++ '-' :: padNat 2 t.month ++ '-' :: padNat 2 t.day ++
    ' ' :: padNat 2 t.hour ++ ':' :: padNat 2 t.minute ++ ':' :: padNat 2 t.second⟩

/-- Python's `datetime.isoformat()` for an aware UTC datetime:
`YYYY-MM-DDTHH:MM:SS[.ffffff]+00:00` (the microsecond part is omitted when
zero). -/
def pyIsoUtcStr (t : PyDateTime) : String :=
  ⟨padNat 4 t.year ++ '-' :: padNat 2 t.month ++ '-' :: padNat 2 t.day ++
    'T' :: padNat 2 t.hour ++ ':' :: padNat 2 t.minute ++ ':' :: padNat 2 t.second ++
    (if t.micro = 0 then [] else '.' :: padNat 6 t.micro) ++
    ['+', '0', '0', ':', '0', '0']⟩

/-- Gregorian leap year. -/
def isLeapYear (y : Nat) : Bool :=
  (y % 4 == 0 && y % 100 != 0) || y % 400 == 0

/-- Days in a Gregorian month. -/
def daysInMonth (y m : Nat) : Nat :=
  if m = 2 then (if isLeapYear y then 29 else 28)
  else if m = 4 ∨ m = 6 ∨ m = 9 ∨ m = 11 then 30
  else 31

/-- Advance a calendar date by one day, keeping the time of day. -/
def addOneDay (t : PyDateTime) : PyDateTime :=
  if t.day < daysInMonth t.year t.month then { t with day := t.day + 1 }
  else if t.month < 12 then { t with month := t.month + 1, day := 1 }
  else { t with year := t.year + 1, month := 1, day := 1 }

/-- Python `t + timedelta(hours=n)` on an aware UTC datetime. -/
def addHoursDt (n : Nat) (t : PyDateTime) : PyDateTime :=
  let total := t.hour + n
  addOneDay^[total / 24] { t with hour := total % 24 }

/-- Chronological encoding of a datetime, strictly monotone in calendar
order (used only to state which of two instants is later). -/
def dtNat (t : PyDateTime) : Nat :=
  ((((t.year * 13 + t.month) * 32 + t.day) * 24 + t.hour) * 60 + t.minute) * 60000000 +
    t.second * 1000000 + t.micro

/-! ### Cache Store (`search_cache` table; `api/services/cache.py` and
`clear_expired_cache` in `api/database.py`) -/

/-- One row of the `search_cache` table.  `response_json` is the opaque
serialized payload blob; the timestamp columns hold the TEXT that was
written into them. -/
structure CacheRow where
  query_hash : String
  query : String
  page : Int
  limit_val : Int
  response_json : String
  created_at : String
  expires_at : String
deriving DecidableEq, Repr

/-- The `search_cache` table state. -/
structure CacheState where
  rows : List CacheRow
deriving DecidableEq, Repr

/-- `CACHE_TTL_HOURS` from `api/services/cache.py`. -/
def CACHE_TTL_HOURS : Nat := 24

/-- `store_cached_response`: `INSERT OR REPLACE` keyed on the unique
`query_hash`; `expires_at = (datetime.now(timezone.utc) +
timedelta(hours=CACHE_TTL_HOURS)).isoformat()`, while `created_at` takes the
column default `CURRENT_TIMESTAMP`. -/
def store_cached_response (query : String) (page limit : Int) (response_json : String)
    (now : PyDateTime) (s : CacheState) : CacheState :=
  let h := generate_cache_key query page limit
  ⟨s.rows.filter (fun r => !(r.query_hash == h)) ++
    [⟨h, query, page, limit, response_json, sqliteDtStr now,
      pyIsoUtcStr (addHoursDt CACHE_TTL_HOURS now)⟩]⟩

/-- `get_cached_response`: `SELECT response_json FROM search_cache WHERE
query_hash = ? AND expires_at > datetime('now')`, a pure read — the returned
state is the state of the connection after the `SELECT`. -/
def get_cached_response (query : String) (page limit : Int) (now : PyDateTime)
    (s : CacheState) : Option String × CacheState :=
  match s.rows.find? (fun r =>
      r.query_hash == generate_cache_key query page limit &&
        sqliteTextLt (sqliteDtStr now) r.expires_at) with
  | some r => (some r.response_json, s)
  | none => (none, s)

/-- `invalidate_cache`: `DELETE FROM search_cache WHERE query_hash = ?`,
returning `rowcount > 0`. -/
def invalidate_cache (query : String) (page limit : Int) (s : CacheState) :
    Bool × CacheState :=
  let h := generate_cache_key query page limit
  (s.rows.any (fun r => r.query_hash == h),
   ⟨s.rows.filter (fun r => !(r.query_hash == h))⟩)

/-- `clear_expired_cache` (`api/database.py`): `DELETE FROM search_cache
WHERE expires_at < datetime('now')`, returning `rowcount`. -/
def clear_expired_cache (now : PyDateTime) (s : CacheState) : Nat × CacheState :=
  ((s.rows.filter (fun r => sqliteTextLt r.expires_at (sqliteDtStr now))).length,
   ⟨s.rows.filter (fun r => !sqliteTextLt r.expires_at (sqliteDtStr now))⟩)

/-! ### Library Store (`books` and `book_statuses` tables, `api/database.py`)

Author lists are persisted as `json.dumps(author_name)`; the embedding keeps
the encoded TEXT in the rows and in the returned records (the source decodes
it back to a list with `json.loads` at every read). -/

/-- One character of Python `json.dumps` string escaping (`ensure_ascii`). -/
def jsonEscapeChar (c : Char) : List Char :=
  if c == '"' then ['\\', '"']
  else if c == '\\' then ['\\', '\\']
  else if c == '\n' then ['\\', 'n']
  else if c == '\t' then ['\\', 't']
  else if c == '\x0d' then ['\\', 'r']
  else if c == '\x08' then ['\\', 'b']
  else if c == '\x0c' then ['\\', 'f']
  else if c.toNat < 32 || 126 < c.toNat then '\\' :: 'u' :: hexPad 4 c.toNat
  else [c]

/-- Python `json.dumps` of one string. -/
def jsonStrChars (s : String) : List Char :=
  '"' :: (s.data.map jsonEscapeChar).flatten ++ ['"']

/-- Python `json.dumps` of a list of strings (default separators). -/
def jsonDumps (l : List String) : String :=
  ⟨'[' :: List.intercalate [',', ' '] (l.map jsonStrChars) ++ [']']⟩

/-- One row of the `books` table. -/
structure BookRow where
  id : Nat
  openlibrary_work_key : String
  title : String
  author_name : String
  cover_url : Option String
  first_publish_year : Option Int
  created_at : String
deriving DecidableEq, Repr

/-- One row of the `book_statuses` table (its own surrogate id is never
read and is omitted; `book_id` is `UNIQUE` and references `books.id`). -/
structure StatusRow where
  book_id : Nat
  status : String
  created_at : String
  updated_at : String
deriving DecidableEq, Repr

/-- The committed state of the two library tables, plus the next
`AUTOINCREMENT` id for `books`. -/
structure LibState where
  books : List BookRow
  statuses : List StatusRow
  nextBookId : Nat
deriving DecidableEq, Repr

/-- The state of a freshly initialized database (`init_database`). -/
def initState : LibState := ⟨[], [], 1⟩

/-- The joined record returned by the status read/write paths. -/
structure BookStatusRec where
  openlibrary_work_key : String
  title : String
  author_name : String
  cover_url : Option String
  first_publish_year : Option Int
  status : String
  created_at : String
  updated_at : String
deriving DecidableEq, Repr

/-- The error raised out of a library operation (SQLite integrity error,
e.g. the `CHECK` constraint on `book_statuses.status`). -/
inductive DBError where
  | integrityError
deriving DecidableEq, Repr

/-- One SQL statement of a library write, as its effect on the table state:
a plain DML statement, a DML statement guarded by a constraint check that
makes the statement fail, or the final `COMMIT`. -/
inductive LibStmt where
  | write (f : LibState → LibState)
  | check (ok : Bool) (f : LibState → LibState)
  | commit

/-- A connection: the committed state visible to other connections, the
uncommitted state of the open transaction, and whether a statement failed.
Closing the connection without `COMMIT` rolls the transaction back, so the
observable outcome of a call is always `committed`. -/
structure LibConn where
  committed : LibState
  current : LibState
  failed : Bool

/-- Execute one statement: after a failure nothing further runs. -/
def execStmt (c : LibConn) : LibStmt → LibConn
  | .write f => if c.failed then c else { c with current := f c.current }
  | .check ok f =>
    if c.failed then c
    else if ok then { c with current := f c.current }
    else { c with failed := true }
  | .commit => if c.failed then c else { c with committed := c.current }

/-- Run a statement list on a fresh connection over committed state `s`. -/
def runStmts (l : List LibStmt) (s : LibState) : LibConn :=
  l.foldl execStmt ⟨s, s, false⟩

/-- The connection after only the first `k` statements ran (the operation
was interrupted mid-way). -/
def runStmtsUpTo (l : List LibStmt) (k : Nat) (s : LibState) : LibConn :=
  runStmts (l.take k) s

/-- The closed status enumeration of the `CHECK` constraint:
`status IN ('to_read', 'did_not_finish', 'completed')`. -/
def validStatus (status : String) : Bool :=
  status == "to_read" || status == "did_not_finish" || status == "completed"

/-- `INSERT INTO books ... ON CONFLICT(openlibrary_work_key) DO UPDATE SET`
all metadata fields (`created_at` is written only on insert). -/
def upsertBook (key title author_name_json : String) (cover_url : Option String)
    (first_publish_year : Option Int) (now : String) (s : LibState) : LibState :=
  if s.books.any (fun b => b.openlibrary_work_key == key) then
    { s with books := s.books.map (fun b =>
        if b.openlibrary_work_key == key then
          { b with
            title := title
            author_name := author_name_json
            cover_url := cover_url
            first_publish_year := first_publish_year }
        else b) }
  else
    { s with
      books := s.books ++ [⟨s.nextBookId, key, title, author_name_json, cover_url,
        first_publish_year, now⟩]
      nextBookId := s.nextBookId + 1 }

/-- `SELECT id FROM books WHERE openlibrary_work_key = ?`. -/
def findBookId (key : String) (s : LibState) : Option Nat :=
  (s.books.find? (fun b => b.openlibrary_work_key == key)).map (fun b => b.id)

/-- `INSERT INTO book_statuses ... ON CONFLICT(book_id) DO UPDATE SET
status = excluded.status, updated_at = excluded.updated_at`. -/
def upsertStatus (book_id : Nat) (status now : String) (s : LibState) : LibState :=
  if s.statuses.any (fun t => t.book_id == book_id) then
    { s with statuses := s.statuses.map (fun t =>
        if t.book_id == book_id then { t with status := status, updated_at := now } else t) }
  else
    { s with statuses := s.statuses ++ [⟨book_id, status, now, now⟩] }

/-- `get_book_status`: the `books`/`book_statuses` join filtered on the work
key, first row or `None`. -/
def get_book_status (key : String) (s : LibState) : Option BookStatusRec :=
  (s.books.find? (fun b => b.openlibrary_work_key == key)).bind fun b =>
    (s.statuses.find? (fun t => t.book_id == b.id)).map fun t =>
      ⟨b.openlibrary_work_key, b.title, b.author_name, b.cover_url, b.first_publish_year,
        t.status, t.created_at, t.updated_at⟩

/-- The statements executed by `set_book_status`, in source order: the book
upsert, then the status upsert whose `CHECK(status IN ...)` constraint can
fail, then the commit.  (The `SELECT id` between the two upserts is a pure
read, folded into the status statement's effect.) -/
def setBookStatusStmts (key status title author_name_json : String)
    (cover_url : Option String) (first_publish_year : Option Int) (now : String) :
    List LibStmt :=
  [.write (upsertBook key title author_name_json cover_url first_publish_year now),
   .check (validStatus status)
     (fun st => upsertStatus ((findBookId key st).getD 0) status now st),
   .commit]

/-- `set_book_status`: runs its statements on one connection; on a
constraint failure the transaction is rolled back on close, so the committed
state is returned alongside the raised error.  On success the joined record
of the final `SELECT` is returned. -/
def set_book_status (key status title : String) (author_name : List String)
    (cover_url : Option String) (first_publish_year : Option Int) (now : String)
    (s : LibState) : Except DBError BookStatusRec × LibState :=
  let c := runStmts
    (setBookStatusStmts key status title (jsonDumps author_name) cover_url
      first_publish_year now) s
  if c.failed then (.error .integrityError, c.committed)
  else
    match get_book_status key c.committed with
    | some r => (.ok r, c.committed)
    | none => (.error .integrityError, c.committed)

/-- The statements executed by `delete_book_status` once the book id is
known: delete the status rows of the book, delete the book row (with the
`ON DELETE CASCADE` clean-up of statuses referencing it), commit. -/
def deleteBookStatusStmts (book_id : Nat) : List LibStmt :=
  [.write (fun st => { st with
      statuses := st.statuses.filter (fun t => !(t.book_id == book_id)) }),
   .write (fun st => { st with
      books := st.books.filter (fun b => !(b.id == book_id))
      statuses := st.statuses.filter (fun t => !(t.book_id == book_id)) }),
   .commit]

/-- `delete_book_status`: returns `False` with no statements run when no
book row matches the key; otherwise runs the two deletes and the commit and
returns whether the status delete removed a row (`cursor.rowcount > 0`). -/
def delete_book_status (key : String) (s : LibState) : Bool × LibState :=
  match s.books.find? (fun b => b.openlibrary_work_key == key) with
  | none => (false, s)
  | some b =>
    (s.statuses.any (fun t => t.book_id == b.id),
     (runStmts (deleteBookStatusStmts b.id) s).committed)

/-- The joined rows of `books JOIN book_statuses`. -/
def joinedRecords (s : LibState) : List BookStatusRec :=
  s.books.filterMap fun b =>
    (s.statuses.find? (fun t => t.book_id == b.id)).map fun t =>
      ⟨b.openlibrary_work_key, b.title, b.author_name, b.cover_url, b.first_publish_year,
        t.status, t.created_at, t.updated_at⟩

/-- Stable insertion of a record into a list kept descending by
`updated_at` (`ORDER BY bs.updated_at DESC`). -/
def insertUpdatedDesc (r : BookStatusRec) : List BookStatusRec → List BookStatusRec
  | [] => [r]
  | x :: xs =>
    if sqliteTextLt x.updated_at r.updated_at then r :: x :: xs
    else x :: insertUpdatedDesc r xs

/-- Sort records by `updated_at` descending. -/
def sortUpdatedDesc (l : List BookStatusRec) : List BookStatusRec :=
  l.foldr insertUpdatedDesc []

/-- `get_all_book_statuses`: the full join, most recently updated first. -/
def get_all_book_statuses (s : LibState) : List BookStatusRec :=
  sortUpdatedDesc (joinedRecords s)

/-- `get_book_statuses_batch`: key-to-status pairs of the join restricted to
the requested keys; an empty input yields an empty mapping without touching
storage. -/
def get_book_statuses_batch (keys : List String) (s : LibState) : List (String × String) :=
  if keys.isEmpty then []
  else ((joinedRecords s).filter (fun r => keys.contains r.openlibrary_work_key)).map
    (fun r => (r.openlibrary_work_key, r.status))

/-- `get_books_by_status`: the join filtered to one status value, most
recently updated first. -/
def get_books_by_status (status : String) (s : LibState) : List BookStatusRec :=
  sortUpdatedDesc ((joinedRecords s).filter (fun r => r.status == status))

/-- Python dict assignment `d[k] = v`: overwrite in place, or append. -/
def dictSet (d : List (String × Nat)) (k : String) (v : Nat) : List (String × Nat) :=
  if d.any (fun p => p.1 == k) then
    d.map (fun p => if p.1 == k then (k, v) else p)
  else d ++ [(k, v)]

/-- The number of status rows with a given status value. -/
def statusCount (status : String) (s : LibState) : Nat :=
  (s.statuses.filter (fun t => t.status == status)).length

/-- `get_status_counts`: `SELECT status, COUNT(*) ... GROUP BY status`
written over a dict pre-seeded with zeros for the three enumeration
members. -/
def get_status_counts (s : LibState) : List (String × Nat) :=
  (((s.statuses.map (fun t => t.status)).dedup).map
      (fun st => (st, statusCount st s))).foldl
    (fun acc p => dictSet acc p.1 p.2)
    [("to_read", 0), ("did_not_finish", 0), ("completed", 0)]

/-- One Library Store operation, as invoked by the route layer. -/
inductive LibOp where
  | setStatus (key status title : String) (author_name : List String)
      (cover_url : Option String) (first_publish_year : Option Int) (now : String)
  | deleteStatus (key : String)
  | readStatus (key : String)
  | readAll
  | readBatch (keys : List String)
  | readByStatus (status : String)
  | readCounts

/-- The committed state after one operation (the read operations are pure
`SELECT`s over the state and leave it unchanged). -/
def applyOp (s : LibState) : LibOp → LibState
  | .setStatus key status title an c y now => (set_book_status key status title an c y now s).2
  | .deleteStatus key => (delete_book_status key s).2
  | .readStatus _ => s
  | .readAll => s
  | .readBatch _ => s
  | .readByStatus _ => s
  | .readCounts => s

/-- The committed state after a sequence of operations. -/
def applyOps (ops : List LibOp) (s : LibState) : LibState :=
  ops.foldl applyOp s

/-- The well-formedness invariant of the two library tables: fresh id
counter, unique ids, the `UNIQUE` constraint on `book_statuses.book_id`,
and the 1:1 correspondence between books and statuses. -/
def Inv (s : LibState) : Prop :=
  (∀ b ∈ s.books, b.id < s.nextBookId) ∧
  (∀ t ∈ s.statuses, t.book_id < s.nextBookId) ∧
  (s.books.map (fun b => b.id)).Nodup ∧
  (s.statuses.map (fun t => t.book_id)).Nodup ∧
  (∀ b ∈ s.books, ∃ t ∈ s.statuses, t.book_id = b.id) ∧
  (∀ t ∈ s.statuses, ∃ b ∈ s.books, b.id = t.book_id)

theorem natReprCoreAux_congr : ∀ f1 f2 n : Nat, n ≤ f1 → n ≤ f2 →
    natReprCoreAux f1 n = natReprCoreAux f2 n := by
  intro f1
  induction f1 with
  | zero =>
    intro f2 n h1 h2
    have : n = 0 := Nat.le_zero.mp h1
    subst this
    cases f2 <;> simp [natReprCoreAux]
  | succ g1 ih =>
    intro f2 n h1 h2
    rcases Nat.eq_zero_or_pos n with rfl | hn
    · cases f2 <;> simp [natReprCoreAux]
    · rcases Nat.exists_eq_succ_of_ne_zero (Nat.pos_iff_ne_zero.mp (lt_of_lt_of_le hn h2)) with
        ⟨g2, rfl⟩
      have hd : n / 10 ≤ g1 := by
        have := Nat.div_lt_self hn (by norm_num : (1 : Nat) < 10)
        omega
      have hd2 : n / 10 ≤ g2 := by
        have := Nat.div_lt_self hn (by norm_num : (1 : Nat) < 10)
        omega
      simp only [natReprCoreAux, if_neg (Nat.pos_iff_ne_zero.mp hn)]
      rw [ih g2 (n / 10) hd hd2]

theorem natReprCore_zero : natReprCore 0 = [] := rfl

theorem natReprCore_succ (n : Nat) :
    natReprCore (n + 1) = natReprCore ((n + 1) / 10) ++ [digitChar ((n + 1) % 10)] := by
  show natReprCoreAux (n + 1) (n + 1) = natReprCoreAux ((n + 1) / 10) ((n + 1) / 10) ++ _
  have hlt : (n + 1) / 10 < n + 1 := Nat.div_lt_self (Nat.succ_pos n) (by norm_num)
  simp only [natReprCoreAux, if_neg (Nat.succ_ne_zero n)]
  rw [natReprCoreAux_congr n ((n + 1) / 10) ((n + 1) / 10) (by omega) le_rfl]

theorem digitChar_toNat (d : Nat) (h : d < 10) : (digitChar d).toNat = 48 + d := by
  interval_cases d <;> decide

theorem digitsVal_append (l : List Char) (c : Char) :
    digitsVal (l ++ [c]) = digitsVal l * 10 + (c.toNat - 48) := by
  simp [digitsVal]

theorem digitsVal_natReprCore (n : Nat) : digitsVal (natReprCore n) = n := by
  induction n using Nat.strong_induction_on with
  | _ n ih =>
    match n with
    | 0 => simp [natReprCore_zero, digitsVal]
    | m + 1 =>
      rw [natReprCore_succ, digitsVal_append, ih ((m + 1) / 10)
        (Nat.div_lt_self (Nat.succ_pos m) (by norm_num)),
        digitChar_toNat _ (Nat.mod_lt _ (by norm_num))]
      omega

theorem digitsVal_natRepr (n : Nat) : digitsVal (natRepr n) = n := by
  unfold natRepr
  split
  · rename_i h
    subst h
    decide
  · exact digitsVal_natReprCore n

theorem natRepr_injective : Function.Injective natRepr := by
  intro a b h
  have := digitsVal_natRepr a
  rw [h, digitsVal_natRepr] at this
  omega

theorem natReprCore_digits (n : Nat) : ∀ c ∈ natReprCore n, 48 ≤ c.toNat ∧ c.toNat ≤ 57 := by
  induction n using Nat.strong_induction_on with
  | _ n ih =>
    match n with
    | 0 => simp [natReprCore_zero]
    | m + 1 =>
      rw [natReprCore_succ]
      intro c hc
      rcases List.mem_append.mp hc with h | h
      · exact ih ((m + 1) / 10) (Nat.div_lt_self (Nat.succ_pos m) (by norm_num)) c h
      · have hc10 : c = digitChar ((m + 1) % 10) := by simpa using h
        subst hc10
        rw [digitChar_toNat _ (Nat.mod_lt _ (by norm_num))]
        omega

theorem natRepr_digits (n : Nat) : ∀ c ∈ natRepr n, 48 ≤ c.toNat ∧ c.toNat ≤ 57 := by
  unfold natRepr
  split
  · intro c hc
    have : c = '0' := by simpa using hc
    subst this
    simp
  · exact natReprCore_digits n

theorem natRepr_ne_nil (n : Nat) : natRepr n ≠ [] := by
  unfold natRepr
  split
  · simp
  · intro h
    have := digitsVal_natReprCore n
    rw [h] at this
    simp [digitsVal] at this
    omega

theorem intRepr_injective : Function.Injective intRepr := by
  intro a b h
  unfold intRepr at h
  split at h <;> split at h
  · rename_i ha hb
    have := natRepr_injective (List.cons_injective h)
    omega
  · rename_i ha hb
    exfalso
    rcases List.exists_cons_of_ne_nil (natRepr_ne_nil b.toNat) with ⟨c, cs, hc⟩
    rw [hc] at h
    have hd := natRepr_digits b.toNat c (by rw [hc]; exact List.mem_cons_self _ _)
    have : ('-' : Char).toNat = 45 := by decide
    have hcons := List.head_eq_of_cons_eq h
    rw [← hcons] at hd
    omega
  · rename_i ha hb
    exfalso
    rcases List.exists_cons_of_ne_nil (natRepr_ne_nil a.toNat) with ⟨c, cs, hc⟩
    rw [hc] at h
    have hd := natRepr_digits a.toNat c (by rw [hc]; exact List.mem_cons_self _ _)
    have hcons := List.head_eq_of_cons_eq h
    rw [hcons] at hd
    have : ('-' : Char).toNat = 45 := by decide
    omega
  · rename_i ha hb
    have := natRepr_injective h
    omega

theorem generate_cache_key_congr {q1 q2 : String} (page limit : Int)
    (h : pyNormalize q1 = pyNormalize q2) :
    generate_cache_key q1 page limit = generate_cache_key q2 page limit := by
  unfold generate_cache_key cacheKeyChars
  rw [h]

theorem cacheKeyChars_page_ne (q : String) (lim : Int) {p1 p2 : Int} (h : p1 ≠ p2) :
    cacheKeyChars q p1 lim ≠ cacheKeyChars q p2 lim := by
  intro he
  unfold cacheKeyChars at he
  have h1 := List.append_cancel_left he
  have h2 := List.tail_eq_of_cons_eq h1
  have h3 := List.append_cancel_right h2
  exact h (intRepr_injective h3)

theorem cacheKeyChars_limit_ne (q : String) (p : Int) {l1 l2 : Int} (h : l1 ≠ l2) :
    cacheKeyChars q p l1 ≠ cacheKeyChars q p l2 := by
  intro he
  unfold cacheKeyChars at he
  have h1 := List.append_cancel_left he
  have h2 := List.tail_eq_of_cons_eq h1
  have h3 := List.append_cancel_left h2
  have h4 := List.tail_eq_of_cons_eq h3
  exact h (intRepr_injective h4)

/-! Boundedness of the SHA-256 state, needed to see the digest space as
finite. -/

theorem getD_lt_of_forall {l : List Nat} (h : ∀ x ∈ l, x < M32) (i : Nat) :
    l.getD i 0 < M32 := by
  induction l generalizing i with
  | nil =>
    simp only [List.getD_nil]
    norm_num [M32]
  | cons a tl ih =>
    cases i with
    | zero => simpa using h a (List.mem_cons_self a tl)
    | succ j =>
      simp only [List.getD_cons_succ]
      exact ih (fun x hx => h x (List.mem_cons_of_mem _ hx)) j

theorem shaRound_inv {st : List Nat} (h : ∀ x ∈ st, x < M32) (kw : Nat × Nat) :
    (shaRound st kw).length = 8 ∧ ∀ x ∈ shaRound st kw, x < M32 := by
  refine ⟨rfl, ?_⟩
  intro x hx
  have hM : 0 < M32 := by norm_num [M32]
  simp only [shaRound, List.mem_cons] at hx
  rcases hx with rfl | rfl | rfl | rfl | rfl | rfl | rfl | rfl | hx
  · exact Nat.mod_lt _ hM
  · exact getD_lt_of_forall h 0
  · exact getD_lt_of_forall h 1
  · exact getD_lt_of_forall h 2
  · exact Nat.mod_lt _ hM
  · exact getD_lt_of_forall h 4
  · exact getD_lt_of_forall h 5
  · exact getD_lt_of_forall h 6
  · simp at hx

theorem foldl_shaRound_inv (l : List (Nat × Nat)) (st : List Nat)
    (h : st.length = 8 ∧ ∀ x ∈ st, x < M32) :
    (l.foldl shaRound st).length = 8 ∧ ∀ x ∈ l.foldl shaRound st, x < M32 := by
  induction l generalizing st with
  | nil => exact h
  | cons kw tl ih => exact ih _ (shaRound_inv h.2 kw)

theorem mem_zipWith_mod {a b : List Nat} {x : Nat}
    (hx : x ∈ List.zipWith (fun x y => (x + y) % M32) a b) : x < M32 := by
  induction a generalizing b with
  | nil => simp at hx
  | cons p ptl ih =>
    cases b with
    | nil => simp at hx
    | cons q qtl =>
      rcases List.mem_cons.mp hx with rfl | hx
      · exact Nat.mod_lt _ (by norm_num [M32])
      · exact ih hx

theorem zipWith_mod_inv (a b : List Nat) (ha : a.length = 8) (hb : b.length = 8) :
    (List.zipWith (fun x y => (x + y) % M32) a b).length = 8 ∧
      ∀ x ∈ List.zipWith (fun x y => (x + y) % M32) a b, x < M32 := by
  constructor
  · simp [List.length_zipWith, ha, hb]
  · intro x hx
    exact mem_zipWith_mod hx

theorem shaCompress_inv (H blk : List Nat) (h : H.length = 8 ∧ ∀ x ∈ H, x < M32) :
    (shaCompress H blk).length = 8 ∧ ∀ x ∈ shaCompress H blk, x < M32 := by
  unfold shaCompress
  have hst := foldl_shaRound_inv (shaK.zip (extendWords (blockWords blk))) H h
  exact zipWith_mod_inv _ _ h.1 hst.1

theorem foldl_shaCompress_inv (blocks : List (List Nat)) (H : List Nat)
    (h : H.length = 8 ∧ ∀ x ∈ H, x < M32) :
    (blocks.foldl shaCompress H).length = 8 ∧ ∀ x ∈ blocks.foldl shaCompress H, x < M32 := by
  induction blocks generalizing H with
  | nil => exact h
  | cons b tl ih => exact ih _ (shaCompress_inv _ b h)

theorem sha256Words_inv (msg : List Nat) :
    (sha256Words msg).length = 8 ∧ ∀ x ∈ sha256Words msg, x < M32 := by
  unfold sha256Words
  exact foldl_shaCompress_inv _ _ ⟨rfl, by decide⟩

theorem sha256Words_eq_of_digestTuple_eq {m1 m2 : List Nat}
    (h : digestTuple m1 = digestTuple m2) : sha256Words m1 = sha256Words m2 := by
  have h1 := sha256Words_inv m1
  have h2 := sha256Words_inv m2
  have hw : ∀ i, (sha256Words m1).getD i 0 = (sha256Words m2).getD i 0 := by
    intro i
    have key : ∀ j, j < 8 →
        (sha256Words m1).getD j 0 % M32 = (sha256Words m2).getD j 0 % M32 →
        (sha256Words m1).getD j 0 = (sha256Words m2).getD j 0 := by
      intro j _ hj
      rwa [Nat.mod_eq_of_lt (getD_lt_of_forall h1.2 j),
        Nat.mod_eq_of_lt (getD_lt_of_forall h2.2 j)] at hj
    by_cases hi : i < 8
    · unfold digestTuple at h
      simp only [Prod.mk.injEq, Fin.mk.injEq] at h
      interval_cases i
      · exact key 0 (by norm_num) h.1
      · exact key 1 (by norm_num) h.2.1
      · exact key 2 (by norm_num) h.2.2.1
      · exact key 3 (by norm_num) h.2.2.2.1
      · exact key 4 (by norm_num) h.2.2.2.2.1
      · exact key 5 (by norm_num) h.2.2.2.2.2.1
      · exact key 6 (by norm_num) h.2.2.2.2.2.2.1
      · exact key 7 (by norm_num) h.2.2.2.2.2.2.2
    · rw [List.getD_eq_default, List.getD_eq_default] <;> omega
  apply List.ext_getElem (by omega)
  intro i hi1 hi2
  have := hw i
  rwa [List.getD_eq_getElem _ _ hi1, List.getD_eq_getElem _ _ hi2] at this

theorem sha256Hex_eq_of_digestTuple_eq {m1 m2 : List Nat}
    (h : digestTuple m1 = digestTuple m2) : sha256Hex m1 = sha256Hex m2 := by
  unfold sha256Hex
  rw [sha256Words_eq_of_digestTuple_eq h]

/-- By pigeonhole over the finite digest space, some two distinct pages share
a fingerprint: the fingerprint is not an injective function of the page. -/
theorem generate_cache_key_page_collision :
    ∃ p1 p2 : Int, p1 ≠ p2 ∧ generate_cache_key "q" p1 100 = generate_cache_key "q" p2 100 := by
  obtain ⟨a, b, hab, heq⟩ := Finite.exists_ne_map_eq_of_infinite
    (fun n : Nat => digestTuple (utf8Bytes (cacheKeyChars "q" (n : Int) 100)))
  refine ⟨(a : Int), (b : Int), by exact_mod_cast hab, ?_⟩
  unfold generate_cache_key
  exact sha256Hex_eq_of_digestTuple_eq heq

/-! ### Claims about the Cache Store -/

/-- C9: `get_cached_response` is a pure read: for every cache state and
every query, page, page size and current time, the stored cache rows are
left unchanged — in particular an expired row matching the fingerprint
remains physically present. -/
theorem get_cached_response_state_unchanged (query : String) (page lim : Int)
    (now : PyDateTime) (s : CacheState) :
    (get_cached_response query page lim now s).2 = s := by
  unfold get_cached_response
  rcases h : s.rows.find? (fun r =>
      r.query_hash == generate_cache_key query page lim &&
        sqliteTextLt (sqliteDtStr now) r.expires_at) with _ | r <;> rw [h]

set_option maxRecDepth 100000 in
/-- C4 (code evaluated at the failing input): two payloads stored through
`store_cached_response` expire chronologically at 2026-10-11 05:00:00.5 UTC
and 2026-10-12 05:00:00.5 UTC; a sweep at 2026-10-12 10:00:00 UTC — both
TTLs elapsed — removes only the previous-day row and returns `1`, retaining
the row that expired five hours earlier on the current UTC day: the
`DELETE` compares the row's ISO-8601 `expires_at`
(`2026-10-12T05:00:00.500000+00:00`) against SQLite's `datetime('now')`
text (`2026-10-12 10:00:00`), and `T` sorts above the space, so the
same-day-expired row is never below the threshold.  The claim — remove
every row with `expiresAt ≤ now` and return the count — demands `(2,
empty store)` here. -/
theorem clear_expired_cache_expired_ttl_bug :
    dtNat (addHoursDt CACHE_TTL_HOURS ⟨2026, 10, 10, 5, 0, 0, 500000⟩) ≤
      dtNat ⟨2026, 10, 12, 10, 0, 0, 0⟩ ∧
    dtNat (addHoursDt CACHE_TTL_HOURS ⟨2026, 10, 11, 5, 0, 0, 500000⟩) ≤
      dtNat ⟨2026, 10, 12, 10, 0, 0, 0⟩ ∧
    clear_expired_cache ⟨2026, 10, 12, 10, 0, 0, 0⟩
        (store_cached_response "b" 1 100 "[2]" ⟨2026, 10, 11, 5, 0, 0, 500000⟩
          (store_cached_response "a" 1 100 "[1]" ⟨2026, 10, 10, 5, 0, 0, 500000⟩ ⟨[]⟩)) =
      (1, ⟨[⟨generate_cache_key "b" 1 100, "b", 1, 100, "[2]", "2026-10-11 05:00:00",
        "2026-10-12T05:00:00.500000+00:00"⟩]⟩) := by
  refine ⟨by decide, by decide, by decide⟩

set_option maxRecDepth 100000 in
/-- C6 (code evaluated at the failing input): a payload stored at
2026-10-11 10:00:00.5 UTC expires at 2026-10-12 10:00:00.5 UTC, yet a read
at 2026-10-12 15:00:00 UTC — five hours after the 24-hour TTL elapsed —
still returns it: the row's ISO-8601 `expires_at`
(`2026-10-12T10:00:00.500000+00:00`) compares above SQLite's
`datetime('now')` text (`2026-10-12 15:00:00`) because `T` sorts after the
space. -/
theorem get_cached_response_expired_ttl_bug :
    dtNat (addHoursDt CACHE_TTL_HOURS ⟨2026, 10, 11, 10, 0, 0, 500000⟩) ≤
      dtNat ⟨2026, 10, 12, 15, 0, 0, 0⟩ ∧
    (get_cached_response "q" 1 100 ⟨2026, 10, 12, 15, 0, 0, 0⟩
        (store_cached_response "q" 1 100 "[1,2]" ⟨2026, 10, 11, 10, 0, 0, 500000⟩ ⟨[]⟩)).1 =
      some "[1,2]" := by
  constructor
  · decide
  · decide

/-! ### Claims about `generate_cache_key` -/

/-- C7 (amended): `generate_cache_key` is deterministic and insensitive to
leading/trailing whitespace and letter case of the query — queries equal
after normalization give equal fingerprints — and varying the page alone or
the page size alone always changes the hashed key string (the SHA-256
pre-image); fingerprint inequality itself holds only up to SHA-256
collisions. -/
theorem generate_cache_key_spec :
    (∀ q1 q2 : String, ∀ page lim : Int, pyNormalize q1 = pyNormalize q2 →
      generate_cache_key q1 page lim = generate_cache_key q2 page lim) ∧
    (∀ q : String, ∀ lim p1 p2 : Int, p1 ≠ p2 →
      cacheKeyChars q p1 lim ≠ cacheKeyChars q p2 lim) ∧
    (∀ q : String, ∀ p l1 l2 : Int, l1 ≠ l2 →
      cacheKeyChars q p l1 ≠ cacheKeyChars q p l2) :=
  ⟨fun _ _ page lim h => generate_cache_key_congr page lim h,
   fun q lim _ _ h => cacheKeyChars_page_ne q lim h,
   fun q p _ _ h => cacheKeyChars_limit_ne q p h⟩

/-- C7 (witness): concrete instances — whitespace and case insensitivity,
and distinct key strings under a changed page or page size. -/
theorem generate_cache_key_spec_witness :
    generate_cache_key "  Test Query  " 1 100 = generate_cache_key "test query" 1 100 ∧
    cacheKeyChars "test" 1 100 ≠ cacheKeyChars "test" 2 100 ∧
    cacheKeyChars "test" 1 50 ≠ cacheKeyChars "test" 1 100 :=
  ⟨generate_cache_key_spec.1 "  Test Query  " "test query" 1 100 (by decide),
   generate_cache_key_spec.2.1 "test" 100 1 2 (by decide),
   generate_cache_key_spec.2.2 "test" 1 50 100 (by decide)⟩

/-- C7 (counterexample): it is false that varying the page alone always
yields a different fingerprint — the digest space is finite while the pages
are not, so by pigeonhole two distinct pages share a fingerprint. -/
theorem generate_cache_key_distinct_page_cex :
    ¬ (∀ (q : String) (lim p1 p2 : Int), p1 ≠ p2 →
        generate_cache_key q p1 lim ≠ generate_cache_key q p2 lim) := by
  intro h
  obtain ⟨p1, p2, hne, heq⟩ := generate_cache_key_page_collision
  exact h "q" 100 p1 p2 hne heq

/-! ### Claims about the Library Store -/

theorem set_book_status_invalid_state (key status title : String) (authors : List String)
    (cover_url : Option String) (first_publish_year : Option Int) (now : String)
    (s : LibState) (h : validStatus status = false) :
    set_book_status key status title authors cover_url first_publish_year now s =
      (.error .integrityError, s) := by
  unfold set_book_status runStmts setBookStatusStmts
  simp [execStmt, h]

theorem set_book_status_valid_state (key status title : String) (authors : List String)
    (cover_url : Option String) (first_publish_year : Option Int) (now : String)
    (s : LibState) (h : validStatus status = true) :
    set_book_status key status title authors cover_url first_publish_year now s =
      (let s1 := upsertBook key title (jsonDumps authors) cover_url first_publish_year now s
       let s2 := upsertStatus ((findBookId key s1).getD 0) status now s1
       match get_book_status key s2 with
       | some r => (.ok r, s2)
       | none => (.error .integrityError, s2)) := by
  unfold set_book_status runStmts setBookStatusStmts
  simp only [List.foldl, execStmt, h, if_true, if_false, Bool.false_eq_true]

/-- C1: `set_book_status` with a status outside the closed enumeration
fails with the integrity error raised by the `CHECK` constraint at the
status insert; since the transaction is never committed, the books upsert
executed before it is rolled back on close and the committed state is
exactly the pre-call state — no books row and no book_statuses row is
inserted or modified. -/
theorem set_book_status_invalid_rejected (key status title : String)
    (authors : List String) (cover_url : Option String) (first_publish_year : Option Int)
    (now : String) (s : LibState) (h : validStatus status = false) :
    set_book_status key status title authors cover_url first_publish_year now s =
      (.error .integrityError, s) :=
  set_book_status_invalid_state key status title authors cover_url first_publish_year now s h

/-- C1 (witness): the scenario of `test_status_enum_constraint`. -/
theorem set_book_status_invalid_rejected_witness :
    validStatus "invalid_status" = false ∧
    set_book_status "/works/OL123W" "invalid_status" "Test Book" ["Author One"]
        none none "2024-01-01T00:00:00" initState =
      (.error .integrityError, initState) :=
  ⟨by decide,
   set_book_status_invalid_rejected "/works/OL123W" "invalid_status" "Test Book"
     ["Author One"] none none "2024-01-01T00:00:00" initState (by decide)⟩

theorem filter_self_filter {α : Type} (p : α → Bool) (l : List α) :
    (l.filter p).filter p = l.filter p := by
  rw [List.filter_filter]
  simp

theorem delete_book_status_found {key : String} {s : LibState} {b : BookRow}
    (hf : s.books.find? (fun x => x.openlibrary_work_key == key) = some b) :
    delete_book_status key s =
      (s.statuses.any (fun t => t.book_id == b.id),
       ⟨s.books.filter (fun x => !(x.id == b.id)),
        s.statuses.filter (fun t => !(t.book_id == b.id)), s.nextBookId⟩) := by
  unfold delete_book_status
  rw [hf]
  unfold runStmts deleteBookStatusStmts
  simp only [List.foldl, execStmt, if_false, Bool.false_eq_true, if_true]
  rw [filter_self_filter]

/-- C3: `delete_book_status` returns `False` with no side effects when no
books row matches the key; otherwise it removes the status row and the book
row and commits them as one atomic unit — every interrupted prefix of its
statements leaves the committed state either fully pre-operation or fully
post-operation — and returns whether a status row was actually deleted. -/
theorem delete_book_status_atomic_spec (key : String) (s : LibState) :
    (s.books.find? (fun b => b.openlibrary_work_key == key) = none →
      delete_book_status key s = (false, s)) ∧
    (∀ b : BookRow, s.books.find? (fun x => x.openlibrary_work_key == key) = some b →
      delete_book_status key s =
        (s.statuses.any (fun t => t.book_id == b.id),
         ⟨s.books.filter (fun x => !(x.id == b.id)),
          s.statuses.filter (fun t => !(t.book_id == b.id)), s.nextBookId⟩) ∧
      ∀ k : Nat, (runStmtsUpTo (deleteBookStatusStmts b.id) k s).committed = s ∨
        (runStmtsUpTo (deleteBookStatusStmts b.id) k s).committed =
          (delete_book_status key s).2) := by
  constructor
  · intro h
    unfold delete_book_status
    rw [h]
  · intro b hf
    refine ⟨delete_book_status_found hf, ?_⟩
    intro k
    rw [delete_book_status_found hf]
    match k with
    | 0 => left; rfl
    | 1 => left; rfl
    | 2 => left; rfl
    | n + 3 =>
      right
      show (runStmts (List.take (n + 3) (deleteBookStatusStmts b.id)) s).committed = _
      rw [List.take_of_length_le (by simp [deleteBookStatusStmts])]
      unfold runStmts deleteBookStatusStmts
      simp only [List.foldl, execStmt, if_false, Bool.false_eq_true, if_true]
      rw [filter_self_filter]

/-- C3 (witness): deleting an existing book with a status removes both rows
atomically and returns `True`; every statement prefix shows either the old
or the new state. -/
theorem delete_book_status_atomic_spec_witness :
    delete_book_status "K"
        ⟨[⟨1, "K", "t", "[]", none, none, "T"⟩],
         [⟨1, "to_read", "T", "T"⟩], 2⟩ =
      (true, ⟨[], [], 2⟩) ∧
    (runStmtsUpTo (deleteBookStatusStmts 1) 2
        ⟨[⟨1, "K", "t", "[]", none, none, "T"⟩],
         [⟨1, "to_read", "T", "T"⟩], 2⟩).committed =
      ⟨[⟨1, "K", "t", "[]", none, none, "T"⟩], [⟨1, "to_read", "T", "T"⟩], 2⟩ := by
  have h := (delete_book_status_atomic_spec "K"
    ⟨[⟨1, "K", "t", "[]", none, none, "T"⟩], [⟨1, "to_read", "T", "T"⟩], 2⟩).2
    ⟨1, "K", "t", "[]", none, none, "T"⟩ (by decide)
  refine ⟨by rw [h.1]; decide, ?_⟩
  rcases h.2 2 with h2 | h2
  · exact h2
  · exfalso
    rw [h.1] at h2
    have hx : (runStmtsUpTo (deleteBookStatusStmts 1) 2
        ⟨[⟨1, "K", "t", "[]", none, none, "T"⟩],
         [⟨1, "to_read", "T", "T"⟩], 2⟩).committed =
        ⟨[⟨1, "K", "t", "[]", none, none, "T"⟩], [⟨1, "to_read", "T", "T"⟩], 2⟩ := by
      decide
    rw [hx] at h2
    exact absurd h2 (by decide)

/-- C10: on a books row with no referencing status row — a state the 1:1
invariant disallows — `delete_book_status` returns `False` and yet deletes
the books row, so a `False` return does not imply the store is unchanged. -/
theorem delete_book_status_orphan_book {key : String} {s : LibState} {b : BookRow}
    (hf : s.books.find? (fun x => x.openlibrary_work_key == key) = some b)
    (hns : s.statuses.filter (fun t => t.book_id == b.id) = []) :
    delete_book_status key s =
      (false, ⟨s.books.filter (fun x => !(x.id == b.id)), s.statuses, s.nextBookId⟩) ∧
    b ∈ s.books ∧ b ∉ (delete_book_status key s).2.books := by
  have hall : ∀ t ∈ s.statuses, ¬((fun t : StatusRow => t.book_id == b.id) t = true) :=
    List.filter_eq_nil_iff.mp hns
  have hany : s.statuses.any (fun t => t.book_id == b.id) = false := by
    rw [List.any_eq_false]
    exact fun t ht => hall t ht
  have hst : s.statuses.filter (fun t => !(t.book_id == b.id)) = s.statuses :=
    List.filter_eq_self.mpr (fun t ht => by
      cases hx : (t.book_id == b.id) with
      | false => simp [hx]
      | true => exact absurd hx (hall t ht))
  have hmem : b ∈ s.books := List.mem_of_find?_eq_some hf
  refine ⟨by rw [delete_book_status_found hf, hany, hst], hmem, ?_⟩
  rw [delete_book_status_found hf]
  intro hb
  have := (List.mem_filter.mp hb).2
  simp at this

/-- C10 (witness): a store holding one orphaned books row. -/
theorem delete_book_status_orphan_book_witness :
    delete_book_status "K" ⟨[⟨7, "K", "t", "[]", none, none, "T"⟩], [], 8⟩ =
      (false, ⟨[], [], 8⟩) ∧
    (⟨7, "K", "t", "[]", none, none, "T"⟩ : BookRow) ∈
      (⟨[⟨7, "K", "t", "[]", none, none, "T"⟩], [], 8⟩ : LibState).books := by
  have h := @delete_book_status_orphan_book "K"
    ⟨[⟨7, "K", "t", "[]", none, none, "T"⟩], [], 8⟩
    ⟨7, "K", "t", "[]", none, none, "T"⟩ (by decide) (by decide)
  exact ⟨by rw [h.1]; decide, h.2.1⟩

theorem find?_append_of_all_false {α : Type} (p : α → Bool) (l1 l2 : List α)
    (h : ∀ x ∈ l1, p x = false) : (l1 ++ l2).find? p = l2.find? p := by
  induction l1 with
  | nil => rfl
  | cons a tl ih =>
    rw [List.cons_append, List.find?_cons_of_neg _ (by rw [h a (List.mem_cons_self a tl)]; decide)]
    exact ih (fun x hx => h x (List.mem_cons_of_mem _ hx))

theorem map_ite_eq_self {α : Type} (g : α → α) (c : α → Bool) (l : List α)
    (h : ∀ x ∈ l, c x = false) : l.map (fun x => if c x then g x else x) = l := by
  induction l with
  | nil => rfl
  | cons a tl ih =>
    rw [List.map_cons, h a (List.mem_cons_self a tl)]
    rw [ih (fun x hx => h x (List.mem_cons_of_mem _ hx))]
    rfl

theorem any_eq_false_of_all_false {α : Type} (p : α → Bool) (l : List α)
    (h : ∀ x ∈ l, p x = false) : l.any p = false :=
  List.any_eq_false.mpr (fun x hx => by rw [h x hx]; exact Bool.false_ne_true)

theorem upsertBook_fresh (key title aj : String) (c : Option String) (y : Option Int)
    (now : String) (s : LibState)
    (hfresh : ∀ b ∈ s.books, (b.openlibrary_work_key == key) = false) :
    upsertBook key title aj c y now s =
      { s with
        books := s.books ++ [⟨s.nextBookId, key, title, aj, c, y, now⟩]
        nextBookId := s.nextBookId + 1 } := by
  unfold upsertBook
  rw [any_eq_false_of_all_false _ _ hfresh]
  rfl

theorem upsertStatus_fresh (book_id : Nat) (status now : String) (s : LibState)
    (h : ∀ t ∈ s.statuses, (t.book_id == book_id) = false) :
    upsertStatus book_id status now s =
      { s with statuses := s.statuses ++ [⟨book_id, status, now, now⟩] } := by
  unfold upsertStatus
  rw [any_eq_false_of_all_false _ _ h]
  rfl

theorem find?_append_single {α : Type} (p : α → Bool) (l : List α) (x : α)
    (hl : ∀ a ∈ l, p a = false) (hx : p x = true) : (l ++ [x]).find? p = some x := by
  rw [find?_append_of_all_false _ _ _ hl, List.find?_cons_of_pos _ hx]

theorem set_book_status_snd (key status title : String) (authors : List String)
    (cover_url : Option String) (first_publish_year : Option Int) (now : String)
    (s : LibState) (h : validStatus status = true) :
    (set_book_status key status title authors cover_url first_publish_year now s).2 =
      upsertStatus
        ((findBookId key
          (upsertBook key title (jsonDumps authors) cover_url first_publish_year now s)).getD 0)
        status now
        (upsertBook key title (jsonDumps authors) cover_url first_publish_year now s) := by
  unfold set_book_status runStmts setBookStatusStmts
  simp only [List.foldl, execStmt, h, if_true, if_false, Bool.false_eq_true]
  split <;> rfl

theorem set_book_status_fst (key status title : String) (authors : List String)
    (cover_url : Option String) (first_publish_year : Option Int) (now : String)
    (s : LibState) (h : validStatus status = true) :
    (set_book_status key status title authors cover_url first_publish_year now s).1 =
      match get_book_status key
        (upsertStatus
          ((findBookId key
            (upsertBook key title (jsonDumps authors) cover_url first_publish_year now s)).getD 0)
          status now
          (upsertBook key title (jsonDumps authors) cover_url first_publish_year now s)) with
      | some r => Except.ok r
      | none => Except.error DBError.integrityError := by
  unfold set_book_status runStmts setBookStatusStmts
  simp only [List.foldl, execStmt, h, if_true, if_false, Bool.false_eq_true]
  split <;> rfl

theorem upsertBook_existing_append (key title aj : String) (c : Option String)
    (y : Option Int) (now : String) (l : List BookRow) (B : BookRow)
    (ss : List StatusRow) (m : Nat)
    (hB : (B.openlibrary_work_key == key) = true)
    (hl : ∀ b ∈ l, (b.openlibrary_work_key == key) = false) :
    upsertBook key title aj c y now ⟨l ++ [B], ss, m⟩ =
      ⟨l ++ [{ B with
        title := title
        author_name := aj
        cover_url := c
        first_publish_year := y }], ss, m⟩ := by
  unfold upsertBook
  have hany : (l ++ [B]).any (fun b => b.openlibrary_work_key == key) = true := by
    rw [List.any_append]
    simp [hB]
  simp only [hany, if_true]
  rw [List.map_append, map_ite_eq_self _ _ _ hl]
  have hBp : B.openlibrary_work_key = key := eq_of_beq hB
  simp [hBp]

theorem upsertStatus_existing_append (bid : Nat) (status now : String)
    (bl : List BookRow) (ss : List StatusRow) (T : StatusRow) (m : Nat)
    (hT : (T.book_id == bid) = true)
    (hss : ∀ t ∈ ss, (t.book_id == bid) = false) :
    upsertStatus bid status now ⟨bl, ss ++ [T], m⟩ =
      ⟨bl, ss ++ [{ T with status := status, updated_at := now }], m⟩ := by
  unfold upsertStatus
  have hany : (ss ++ [T]).any (fun t => t.book_id == bid) = true := by
    rw [List.any_append]
    simp [hT]
  simp only [hany, if_true]
  rw [List.map_append, map_ite_eq_self _ _ _ hss]
  have hTp : T.book_id = bid := eq_of_beq hT
  simp [hTp]

theorem get_book_status_append (key : String) (l : List BookRow) (B : BookRow)
    (ss : List StatusRow) (T : StatusRow) (m : Nat)
    (hB : (B.openlibrary_work_key == key) = true)
    (hl : ∀ b ∈ l, (b.openlibrary_work_key == key) = false)
    (hT : (T.book_id == B.id) = true)
    (hss : ∀ t ∈ ss, (t.book_id == B.id) = false) :
    get_book_status key ⟨l ++ [B], ss ++ [T], m⟩ =
      some ⟨B.openlibrary_work_key, B.title, B.author_name, B.cover_url,
        B.first_publish_year, T.status, T.created_at, T.updated_at⟩ := by
  unfold get_book_status
  rw [show (⟨l ++ [B], ss ++ [T], m⟩ : LibState).books = l ++ [B] from rfl,
    find?_append_single _ _ _ hl hB, Option.some_bind,
    show (⟨l ++ [B], ss ++ [T], m⟩ : LibState).statuses = ss ++ [T] from rfl,
    find?_append_single _ _ _ hss hT]
  rfl

/-- C5: two `set_book_status` calls on a fresh key: the second call —
whether with identical or with different arguments — overwrites the status
and every metadata field with the new values, refreshes `updated_at` to the
second call's time, and leaves `created_at` at the first call's time; the
returned record and a subsequent `get_book_status` agree on this. -/
theorem set_book_status_upsert_semantics
    (key st1 st2 t1 t2 : String) (a1 a2 : List String)
    (c1 c2 : Option String) (y1 y2 : Option Int) (now1 now2 : String) (s : LibState)
    (hfresh : ∀ b ∈ s.books, (b.openlibrary_work_key == key) = false)
    (hstale : ∀ t ∈ s.statuses, (t.book_id == s.nextBookId) = false)
    (hv1 : validStatus st1 = true) (hv2 : validStatus st2 = true) :
    (set_book_status key st2 t2 a2 c2 y2 now2
        (set_book_status key st1 t1 a1 c1 y1 now1 s).2).1 =
      .ok ⟨key, t2, jsonDumps a2, c2, y2, st2, now1, now2⟩ ∧
    get_book_status key
        (set_book_status key st2 t2 a2 c2 y2 now2
          (set_book_status key st1 t1 a1 c1 y1 now1 s).2).2 =
      some ⟨key, t2, jsonDumps a2, c2, y2, st2, now1, now2⟩ := by
  have hkey : (key == key) = true := beq_self_eq_true key
  -- first call: the book row and the status row are appended
  have hub1 : upsertBook key t1 (jsonDumps a1) c1 y1 now1 s =
      ⟨s.books ++ [⟨s.nextBookId, key, t1, jsonDumps a1, c1, y1, now1⟩], s.statuses,
        s.nextBookId + 1⟩ := by
    rw [upsertBook_fresh _ _ _ _ _ _ _ hfresh]
  have hfind1 : findBookId key
      (⟨s.books ++ [⟨s.nextBookId, key, t1, jsonDumps a1, c1, y1, now1⟩], s.statuses,
        s.nextBookId + 1⟩ : LibState) = some s.nextBookId := by
    unfold findBookId
    rw [show (⟨s.books ++ [⟨s.nextBookId, key, t1, jsonDumps a1, c1, y1, now1⟩], s.statuses,
      s.nextBookId + 1⟩ : LibState).books =
        s.books ++ [⟨s.nextBookId, key, t1, jsonDumps a1, c1, y1, now1⟩] from rfl,
      find?_append_single _ _ _ hfresh hkey]
    rfl
  have hus1 : upsertStatus s.nextBookId st1 now1
      (⟨s.books ++ [⟨s.nextBookId, key, t1, jsonDumps a1, c1, y1, now1⟩], s.statuses,
        s.nextBookId + 1⟩ : LibState) =
      ⟨s.books ++ [⟨s.nextBookId, key, t1, jsonDumps a1, c1, y1, now1⟩],
        s.statuses ++ [⟨s.nextBookId, st1, now1, now1⟩], s.nextBookId + 1⟩ :=
    upsertStatus_fresh s.nextBookId st1 now1
      (⟨s.books ++ [⟨s.nextBookId, key, t1, jsonDumps a1, c1, y1, now1⟩], s.statuses,
        s.nextBookId + 1⟩ : LibState) hstale
  have hcall1 : (set_book_status key st1 t1 a1 c1 y1 now1 s).2 =
      ⟨s.books ++ [⟨s.nextBookId, key, t1, jsonDumps a1, c1, y1, now1⟩],
        s.statuses ++ [⟨s.nextBookId, st1, now1, now1⟩], s.nextBookId + 1⟩ := by
    rw [set_book_status_snd _ _ _ _ _ _ _ _ hv1, hub1, hfind1, Option.getD_some, hus1]
  -- second call on the state after the first call
  have hub2 : upsertBook key t2 (jsonDumps a2) c2 y2 now2
      (⟨s.books ++ [⟨s.nextBookId, key, t1, jsonDumps a1, c1, y1, now1⟩],
        s.statuses ++ [⟨s.nextBookId, st1, now1, now1⟩], s.nextBookId + 1⟩ : LibState) =
      ⟨s.books ++ [⟨s.nextBookId, key, t2, jsonDumps a2, c2, y2, now1⟩],
        s.statuses ++ [⟨s.nextBookId, st1, now1, now1⟩], s.nextBookId + 1⟩ :=
    upsertBook_existing_append _ _ _ _ _ _ _ _ _ _ hkey hfresh
  have hfind2 : findBookId key
      (⟨s.books ++ [⟨s.nextBookId, key, t2, jsonDumps a2, c2, y2, now1⟩],
        s.statuses ++ [⟨s.nextBookId, st1, now1, now1⟩], s.nextBookId + 1⟩ : LibState) =
      some s.nextBookId := by
    unfold findBookId
    rw [show (⟨s.books ++ [⟨s.nextBookId, key, t2, jsonDumps a2, c2, y2, now1⟩],
      s.statuses ++ [⟨s.nextBookId, st1, now1, now1⟩], s.nextBookId + 1⟩ : LibState).books =
        s.books ++ [⟨s.nextBookId, key, t2, jsonDumps a2, c2, y2, now1⟩] from rfl,
      find?_append_single _ _ _ hfresh hkey]
    rfl
  have hus2 : upsertStatus s.nextBookId st2 now2
      (⟨s.books ++ [⟨s.nextBookId, key, t2, jsonDumps a2, c2, y2, now1⟩],
        s.statuses ++ [⟨s.nextBookId, st1, now1, now1⟩], s.nextBookId + 1⟩ : LibState) =
      ⟨s.books ++ [⟨s.nextBookId, key, t2, jsonDumps a2, c2, y2, now1⟩],
        s.statuses ++ [⟨s.nextBookId, st2, now1, now2⟩], s.nextBookId + 1⟩ :=
    upsertStatus_existing_append _ _ _ _ _ _ _ (beq_self_eq_true s.nextBookId) hstale
  have hget : get_book_status key
      (⟨s.books ++ [⟨s.nextBookId, key, t2, jsonDumps a2, c2, y2, now1⟩],
        s.statuses ++ [⟨s.nextBookId, st2, now1, now2⟩], s.nextBookId + 1⟩ : LibState) =
      some ⟨key, t2, jsonDumps a2, c2, y2, st2, now1, now2⟩ :=
    get_book_status_append _ _ _ _ _ _ hkey hfresh (beq_self_eq_true s.nextBookId) hstale
  constructor
  · rw [hcall1, set_book_status_fst _ _ _ _ _ _ _ _ hv2, hub2, hfind2, Option.getD_some,
      hus2, hget]
  · rw [hcall1, set_book_status_snd _ _ _ _ _ _ _ _ hv2, hub2, hfind2, Option.getD_some,
      hus2, hget]

/-- C5 (witness): the spec scenario — `"OL1W"` set to `to_read` with title
"Book One", then set to `completed` with title "Book One (rev)": the read
returns `completed`, the new title and the first call's `created_at`. -/
theorem set_book_status_upsert_semantics_witness :
    get_book_status "OL1W"
        (set_book_status "OL1W" "completed" "Book One (rev)" ["Author A"] none none "T2"
          (set_book_status "OL1W" "to_read" "Book One" ["Author A"] none none "T1"
            initState).2).2 =
      some ⟨"OL1W", "Book One (rev)", jsonDumps ["Author A"], none, none,
        "completed", "T1", "T2"⟩ :=
  (set_book_status_upsert_semantics "OL1W" "to_read" "completed" "Book One"
    "Book One (rev)" ["Author A"] ["Author A"] none none none none "T1" "T2" initState
    (by decide) (by decide) (by decide) (by decide)).2

theorem validStatus_cases {x : String} (h : validStatus x = true) :
    x = "to_read" ∨ x = "did_not_finish" ∨ x = "completed" := by
  unfold validStatus at h
  simp only [Bool.or_eq_true, beq_iff_eq] at h
  tauto

theorem foldl_dictSet_triple (s : LibState) (l : List String) :
    ∀ vt vd vc : Nat, (∀ x ∈ l, validStatus x = true) →
      (l.map (fun st => (st, statusCount st s))).foldl (fun acc p => dictSet acc p.1 p.2)
          [("to_read", vt), ("did_not_finish", vd), ("completed", vc)] =
        [("to_read", if "to_read" ∈ l then statusCount "to_read" s else vt),
         ("did_not_finish", if "did_not_finish" ∈ l then statusCount "did_not_finish" s else vd),
         ("completed", if "completed" ∈ l then statusCount "completed" s else vc)] := by
  induction l with
  | nil => simp
  | cons x xs ih =>
    intro vt vd vc hval
    have hx := validStatus_cases (hval x (List.mem_cons_self x xs))
    have htail : ∀ y ∈ xs, validStatus y = true :=
      fun y hy => hval y (List.mem_cons_of_mem _ hy)
    rcases hx with rfl | rfl | rfl
    · rw [List.map_cons, List.foldl_cons,
        show dictSet [("to_read", vt), ("did_not_finish", vd), ("completed", vc)]
          "to_read" (statusCount "to_read" s) =
          [("to_read", statusCount "to_read" s), ("did_not_finish", vd), ("completed", vc)]
          from by simp [dictSet],
        ih _ _ _ htail]
      simp [List.mem_cons]
    · rw [List.map_cons, List.foldl_cons,
        show dictSet [("to_read", vt), ("did_not_finish", vd), ("completed", vc)]
          "did_not_finish" (statusCount "did_not_finish" s) =
          [("to_read", vt), ("did_not_finish", statusCount "did_not_finish" s),
            ("completed", vc)]
          from by simp [dictSet],
        ih _ _ _ htail]
      simp [List.mem_cons]
    · rw [List.map_cons, List.foldl_cons,
        show dictSet [("to_read", vt), ("did_not_finish", vd), ("completed", vc)]
          "completed" (statusCount "completed" s) =
          [("to_read", vt), ("did_not_finish", vd),
            ("completed", statusCount "completed" s)]
          from by simp [dictSet],
        ih _ _ _ htail]
      simp [List.mem_cons]

/-- C8: `get_status_counts` over any state whose status rows respect the
`CHECK` constraint returns a mapping holding exactly the three enumeration
members, each bound to the number of status rows with that value — zero when
no rows carry it. -/
theorem get_status_counts_spec (s : LibState)
    (hval : ∀ t ∈ s.statuses, validStatus t.status = true) :
    get_status_counts s =
      [("to_read", statusCount "to_read" s),
       ("did_not_finish", statusCount "did_not_finish" s),
       ("completed", statusCount "completed" s)] := by
  unfold get_status_counts
  have hded : ∀ x ∈ (s.statuses.map (fun t => t.status)).dedup, validStatus x = true := by
    intro x hx
    rcases List.mem_map.mp (List.mem_dedup.mp hx) with ⟨t, ht, rfl⟩
    exact hval t ht
  rw [foldl_dictSet_triple s _ 0 0 0 hded]
  have key : ∀ st : String,
      (if st ∈ (s.statuses.map (fun t => t.status)).dedup then statusCount st s else 0) =
        statusCount st s := by
    intro st
    by_cases h : st ∈ (s.statuses.map (fun t => t.status)).dedup
    · rw [if_pos h]
    · rw [if_neg h]
      have : s.statuses.filter (fun t => t.status == st) = [] := by
        rw [List.filter_eq_nil_iff]
        intro t ht hts
        exact h (List.mem_dedup.mpr (List.mem_map.mpr ⟨t, ht, (eq_of_beq hts).symm ▸ rfl⟩))
      unfold statusCount
      rw [this]
      rfl
  rw [key, key, key]

/-- C8 (witness): after two `to_read` and one `completed` inserts from an
empty store the counts are `to_read = 2`, `did_not_finish = 0`,
`completed = 1`. -/
theorem get_status_counts_spec_witness :
    get_status_counts
        (set_book_status "OL3W" "completed" "Book Three" ["Author C"] none none "T3"
          (set_book_status "OL2W" "to_read" "Book Two" ["Author B"] none none "T2"
            (set_book_status "OL1W" "to_read" "Book One" ["Author A"] none none "T1"
              initState).2).2).2 =
      [("to_read", 2), ("did_not_finish", 0), ("completed", 1)] :=
  (get_status_counts_spec
    (set_book_status "OL3W" "completed" "Book Three" ["Author C"] none none "T3"
      (set_book_status "OL2W" "to_read" "Book Two" ["Author B"] none none "T2"
        (set_book_status "OL1W" "to_read" "Book One" ["Author A"] none none "T1"
          initState).2).2).2
    (by decide)).trans (by decide)

theorem updBook_id (key title aj : String) (c : Option String) (y : Option Int)
    (b : BookRow) :
    (if b.openlibrary_work_key == key then
      { b with
        title := title
        author_name := aj
        cover_url := c
        first_publish_year := y }
    else b).id = b.id := by
  cases hx : b.openlibrary_work_key == key <;> simp [hx]

theorem updStatus_book_id (bid : Nat) (status now : String) (t : StatusRow) :
    (if t.book_id == bid then { t with status := status, updated_at := now } else t).book_id =
      t.book_id := by
  cases hx : t.book_id == bid <;> simp [hx]

theorem filter_book_id_length_one {l : List StatusRow}
    (hnd : (l.map (fun t => t.book_id)).Nodup) {t : StatusRow} (ht : t ∈ l) :
    (l.filter (fun x => x.book_id == t.book_id)).length = 1 := by
  induction l with
  | nil => simp at ht
  | cons a tl ih =>
    rw [List.map_cons, List.nodup_cons] at hnd
    rcases List.mem_cons.mp ht with rfl | htl
    · rw [List.filter_cons_of_pos (by simp)]
      have hnone : tl.filter (fun x => x.book_id == t.book_id) = [] := by
        rw [List.filter_eq_nil_iff]
        intro x hx hxe
        exact hnd.1 (List.mem_map.mpr ⟨x, hx, eq_of_beq hxe⟩)
      rw [hnone]
      rfl
    · have hne : (a.book_id == t.book_id) = false := by
        cases hx : a.book_id == t.book_id
        · rfl
        · exact absurd (List.mem_map.mpr ⟨t, htl, (eq_of_beq hx).symm⟩) hnd.1
      rw [List.filter_cons_of_neg (by rw [hne]; decide)]
      exact ih hnd.2 htl

theorem inv_delete (key : String) (s : LibState) (h : Inv s) :
    Inv (delete_book_status key s).2 := by
  rcases hf : s.books.find? (fun b => b.openlibrary_work_key == key) with _ | b
  · unfold delete_book_status
    rw [hf]
    exact h
  · rw [delete_book_status_found hf]
    obtain ⟨h1, h2, h3, h4, h5, h6⟩ := h
    refine ⟨?_, ?_, ?_, ?_, ?_, ?_⟩
    · intro x hx
      exact h1 x (List.mem_of_mem_filter hx)
    · intro t ht
      exact h2 t (List.mem_of_mem_filter ht)
    · exact List.Nodup.sublist
        (List.Sublist.map (fun b => b.id) (List.filter_sublist s.books)) h3
    · exact List.Nodup.sublist
        (List.Sublist.map (fun t => t.book_id) (List.filter_sublist s.statuses)) h4
    · intro x hx
      have hmem := List.mem_filter.mp hx
      obtain ⟨t, htmem, htid⟩ := h5 x hmem.1
      have hxid : (x.id == b.id) = false := by
        cases hh : x.id == b.id
        · rfl
        · exfalso
          have hb := hmem.2
          rw [hh] at hb
          exact absurd hb (by decide)
      refine ⟨t, List.mem_filter.mpr ⟨htmem, ?_⟩, htid⟩
      show (!(t.book_id == b.id)) = true
      cases hh : t.book_id == b.id
      · rfl
      · exfalso
        rw [htid] at hh
        exact absurd (hxid.symm.trans hh) (by decide)
    · intro t ht
      have hmem := List.mem_filter.mp ht
      obtain ⟨x, hxmem, hxid⟩ := h6 t hmem.1
      refine ⟨x, List.mem_filter.mpr ⟨hxmem, ?_⟩, hxid⟩
      show (!(x.id == b.id)) = true
      cases hh : x.id == b.id
      · rfl
      · exfalso
        have hb := hmem.2
        rw [← hxid] at hb
        rw [hh] at hb
        exact absurd hb (by decide)

theorem bool_eq_false_of_ne_true {b : Bool} (h : ¬ b = true) : b = false := by
  cases b
  · rfl
  · exact absurd rfl h

theorem updBook_key (key title aj : String) (c : Option String) (y : Option Int)
    (b : BookRow) :
    (if b.openlibrary_work_key == key then
      { b with
        title := title
        author_name := aj
        cover_url := c
        first_publish_year := y }
    else b).openlibrary_work_key = b.openlibrary_work_key := by
  cases hx : b.openlibrary_work_key == key <;> simp [hx]

theorem upsertBook_existing (key title aj : String) (c : Option String) (y : Option Int)
    (now : String) (s : LibState)
    (hk : s.books.any (fun b => b.openlibrary_work_key == key) = true) :
    upsertBook key title aj c y now s =
      { s with books := s.books.map (fun b =>
          if b.openlibrary_work_key == key then
            { b with
              title := title
              author_name := aj
              cover_url := c
              first_publish_year := y }
          else b) } := by
  unfold upsertBook
  rw [if_pos hk]

theorem upsertStatus_existing (bid : Nat) (status now : String) (s : LibState)
    (hst : s.statuses.any (fun t => t.book_id == bid) = true) :
    upsertStatus bid status now s =
      { s with statuses := s.statuses.map (fun t =>
          if t.book_id == bid then { t with status := status, updated_at := now } else t) } := by
  unfold upsertStatus
  rw [if_pos hst]

theorem map_updBook_ids (key title aj : String) (c : Option String) (y : Option Int)
    (l : List BookRow) :
    (l.map (fun b =>
      if b.openlibrary_work_key == key then
        { b with
          title := title
          author_name := aj
          cover_url := c
          first_publish_year := y }
      else b)).map (fun b => b.id) = l.map (fun b => b.id) := by
  rw [List.map_map]
  apply List.map_congr_left
  intro b _
  exact updBook_id key title aj c y b

theorem map_updStatus_book_ids (bid : Nat) (status now : String) (l : List StatusRow) :
    (l.map (fun t =>
      if t.book_id == bid then { t with status := status, updated_at := now } else t)).map
        (fun t => t.book_id) = l.map (fun t => t.book_id) := by
  rw [List.map_map]
  apply List.map_congr_left
  intro t _
  exact updStatus_book_id bid status now t

theorem inv_set_valid (key status title : String) (an : List String) (c : Option String)
    (y : Option Int) (now : String) (s : LibState) (hv : validStatus status = true)
    (h : Inv s) : Inv (set_book_status key status title an c y now s).2 := by
  obtain ⟨h1, h2, h3, h4, h5, h6⟩ := h
  rw [set_book_status_snd _ _ _ _ _ _ _ _ hv]
  by_cases hk : s.books.any (fun b => b.openlibrary_work_key == key) = true
  · -- the key already has a book row: both upserts update in place
    rw [upsertBook_existing _ _ _ _ _ _ _ hk]
    obtain ⟨x, hx, hpx⟩ := List.any_eq_true.mp hk
    have hp1 : ((if x.openlibrary_work_key == key then
        { x with
          title := title
          author_name := jsonDumps an
          cover_url := c
          first_publish_year := y }
      else x : BookRow).openlibrary_work_key == key) = true := by
      rw [updBook_key key title (jsonDumps an) c y x]
      exact hpx
    have hsome : ((s.books.map (fun b =>
        if b.openlibrary_work_key == key then
          { b with
            title := title
            author_name := jsonDumps an
            cover_url := c
            first_publish_year := y }
        else b)).find? (fun b => b.openlibrary_work_key == key)).isSome = true := by
      rw [List.find?_isSome]
      exact ⟨_, List.mem_map.mpr ⟨x, hx, rfl⟩, hp1⟩
    obtain ⟨b, hfb⟩ := Option.isSome_iff_exists.mp hsome
    have hfind : findBookId key
        (⟨s.books.map (fun b =>
          if b.openlibrary_work_key == key then
            { b with
              title := title
              author_name := jsonDumps an
              cover_url := c
              first_publish_year := y }
          else b), s.statuses, s.nextBookId⟩ : LibState) = some b.id := by
      show ((s.books.map _).find? _).map _ = _
      rw [hfb]
      rfl
    rw [hfind, Option.getD_some]
    -- b is the updated image of an original book with the same id
    have hbid : b.id ∈ s.books.map (fun x => x.id) := by
      rw [← map_updBook_ids key title (jsonDumps an) c y s.books]
      exact List.mem_map.mpr ⟨b, List.mem_of_find?_eq_some hfb, rfl⟩
    obtain ⟨b0, hb0, hb0id⟩ := List.mem_map.mp hbid
    obtain ⟨t0, ht0, ht0id⟩ := h5 b0 hb0
    have hst : s.statuses.any (fun t => t.book_id == b.id) = true :=
      List.any_eq_true.mpr ⟨t0, ht0, by rw [ht0id, hb0id]; exact beq_self_eq_true b.id⟩
    have hst' : (⟨s.books.map (fun b =>
        if b.openlibrary_work_key == key then
          { b with
            title := title
            author_name := jsonDumps an
            cover_url := c
            first_publish_year := y }
        else b), s.statuses, s.nextBookId⟩ : LibState).statuses.any
          (fun t => t.book_id == b.id) = true := hst
    rw [upsertStatus_existing _ _ _ _ hst']
    refine ⟨?_, ?_, ?_, ?_, ?_, ?_⟩
    · intro x hx
      obtain ⟨x0, hx0, hx0e⟩ := List.mem_map.mp hx
      rw [← hx0e, updBook_id]
      exact h1 x0 hx0
    · intro t ht
      obtain ⟨t1, ht1, ht1e⟩ := List.mem_map.mp ht
      rw [← ht1e, updStatus_book_id]
      exact h2 t1 ht1
    · rw [show (⟨s.books.map _, s.statuses, s.nextBookId⟩ : LibState).books =
        s.books.map _ from rfl, map_updBook_ids]
      exact h3
    · rw [show (⟨s.books.map _, s.statuses.map _, s.nextBookId⟩ : LibState).statuses =
        s.statuses.map _ from rfl, map_updStatus_book_ids]
      exact h4
    · intro x hx
      obtain ⟨x0, hx0, hx0e⟩ := List.mem_map.mp hx
      obtain ⟨t1, ht1, ht1id⟩ := h5 x0 hx0
      refine ⟨(fun t => if t.book_id == b.id then
        { t with status := status, updated_at := now } else t) t1,
        List.mem_map.mpr ⟨t1, ht1, rfl⟩, ?_⟩
      rw [updStatus_book_id, ht1id, ← hx0e, updBook_id]
    · intro t ht
      obtain ⟨t1, ht1, ht1e⟩ := List.mem_map.mp ht
      obtain ⟨x0, hx0, hx0id⟩ := h6 t1 ht1
      refine ⟨(fun x => if x.openlibrary_work_key == key then
        { x with
          title := title
          author_name := jsonDumps an
          cover_url := c
          first_publish_year := y }
        else x) x0, List.mem_map.mpr ⟨x0, hx0, rfl⟩, ?_⟩
      rw [updBook_id, hx0id, ← ht1e, updStatus_book_id]
  · -- fresh key: the book row and its status row are appended together
    have hkf : ∀ x ∈ s.books, (x.openlibrary_work_key == key) = false := by
      intro x hx
      exact bool_eq_false_of_ne_true (List.any_eq_true.not.mp hk ∘ fun hp => ⟨x, hx, hp⟩)
    rw [upsertBook_fresh _ _ _ _ _ _ _ hkf]
    have hfind : findBookId key
        (⟨s.books ++ [⟨s.nextBookId, key, title, jsonDumps an, c, y, now⟩], s.statuses,
          s.nextBookId + 1⟩ : LibState) = some s.nextBookId := by
      show ((s.books ++ _).find? _).map _ = _
      rw [find?_append_single _ _ _ hkf (beq_self_eq_true key)]
      rfl
    rw [hfind, Option.getD_some]
    have hstale : ∀ t ∈ s.statuses, (t.book_id == s.nextBookId) = false := by
      intro t ht
      cases hx : t.book_id == s.nextBookId
      · rfl
      · exact absurd (eq_of_beq hx) (Nat.ne_of_lt (h2 t ht))
    have hus : upsertStatus s.nextBookId status now
        (⟨s.books ++ [⟨s.nextBookId, key, title, jsonDumps an, c, y, now⟩], s.statuses,
          s.nextBookId + 1⟩ : LibState) =
        ⟨s.books ++ [⟨s.nextBookId, key, title, jsonDumps an, c, y, now⟩],
          s.statuses ++ [⟨s.nextBookId, status, now, now⟩], s.nextBookId + 1⟩ :=
      upsertStatus_fresh s.nextBookId status now
        (⟨s.books ++ [⟨s.nextBookId, key, title, jsonDumps an, c, y, now⟩], s.statuses,
          s.nextBookId + 1⟩ : LibState) hstale
    rw [hus]
    refine ⟨?_, ?_, ?_, ?_, ?_, ?_⟩
    · intro x hx
      rcases List.mem_append.mp hx with hx | hx
      · exact Nat.lt_succ_of_lt (h1 x hx)
      · rw [List.mem_singleton.mp hx]
        exact Nat.lt_succ_self _
    · intro t ht
      rcases List.mem_append.mp ht with ht | ht
      · exact Nat.lt_succ_of_lt (h2 t ht)
      · rw [List.mem_singleton.mp ht]
        exact Nat.lt_succ_self _
    · rw [show (⟨s.books ++ [⟨s.nextBookId, key, title, jsonDumps an, c, y, now⟩],
        s.statuses ++ [⟨s.nextBookId, status, now, now⟩], s.nextBookId + 1⟩
          : LibState).books = s.books ++ [⟨s.nextBookId, key, title, jsonDumps an, c, y, now⟩]
        from rfl, List.map_append]
      rw [List.nodup_append]
      refine ⟨h3, List.nodup_singleton _, ?_⟩
      intro a ha hb
      rw [List.map_singleton] at hb
      rw [List.mem_singleton.mp hb] at ha
      obtain ⟨x0, hx0, hx0id⟩ := List.mem_map.mp ha
      exact absurd hx0id (Nat.ne_of_lt (h1 x0 hx0))
    · rw [show (⟨s.books ++ [⟨s.nextBookId, key, title, jsonDumps an, c, y, now⟩],
        s.statuses ++ [⟨s.nextBookId, status, now, now⟩], s.nextBookId + 1⟩
          : LibState).statuses = s.statuses ++ [⟨s.nextBookId, status, now, now⟩]
        from rfl, List.map_append]
      rw [List.nodup_append]
      refine ⟨h4, List.nodup_singleton _, ?_⟩
      intro a ha hb
      rw [List.map_singleton] at hb
      rw [List.mem_singleton.mp hb] at ha
      obtain ⟨t1, ht1, ht1id⟩ := List.mem_map.mp ha
      exact absurd ht1id (Nat.ne_of_lt (h2 t1 ht1))
    · intro x hx
      rcases List.mem_append.mp hx with hx | hx
      · obtain ⟨t1, ht1, ht1id⟩ := h5 x hx
        exact ⟨t1, List.mem_append_left _ ht1, ht1id⟩
      · rw [List.mem_singleton.mp hx]
        exact ⟨⟨s.nextBookId, status, now, now⟩,
          List.mem_append_right _ (List.mem_singleton_self _), rfl⟩
    · intro t ht
      rcases List.mem_append.mp ht with ht | ht
      · obtain ⟨x0, hx0, hx0id⟩ := h6 t ht
        exact ⟨x0, List.mem_append_left _ hx0, hx0id⟩
      · rw [List.mem_singleton.mp ht]
        exact ⟨⟨s.nextBookId, key, title, jsonDumps an, c, y, now⟩,
          List.mem_append_right _ (List.mem_singleton_self _), rfl⟩

theorem inv_applyOp (op : LibOp) (s : LibState) (h : Inv s) : Inv (applyOp s op) := by
  cases op with
  | setStatus key status title an c y now =>
    by_cases hv : validStatus status = true
    · exact inv_set_valid key status title an c y now s hv h
    · show Inv (set_book_status key status title an c y now s).2
      rw [set_book_status_invalid_state key status title an c y now s
        (bool_eq_false_of_ne_true hv)]
      exact h
  | deleteStatus key => exact inv_delete key s h
  | readStatus key => exact h
  | readAll => exact h
  | readBatch keys => exact h
  | readByStatus status => exact h
  | readCounts => exact h

theorem inv_applyOps (ops : List LibOp) (s : LibState) (h : Inv s) :
    Inv (applyOps ops s) := by
  induction ops generalizing s with
  | nil => exact h
  | cons op tl ih => exact ih _ (inv_applyOp op s h)

theorem inv_initState : Inv initState := by
  refine ⟨?_, ?_, ?_, ?_, ?_, ?_⟩ <;> simp [initState]

/-- C2: after any sequence of Library Store operations starting from the
freshly initialized store, a books row exists iff a book_statuses row owned
by it exists: every books row has exactly one status row referencing it,
and every status row references an existing books row. -/
theorem library_invariant_book_iff_status (ops : List LibOp) :
    (∀ b ∈ (applyOps ops initState).books,
      ((applyOps ops initState).statuses.filter
        (fun t => t.book_id == b.id)).length = 1) ∧
    (∀ t ∈ (applyOps ops initState).statuses,
      ∃ b ∈ (applyOps ops initState).books, b.id = t.book_id) := by
  obtain ⟨h1, h2, h3, h4, h5, h6⟩ := inv_applyOps ops initState inv_initState
  constructor
  · intro b hb
    obtain ⟨t, ht, htid⟩ := h5 b hb
    have hone := filter_book_id_length_one h4 ht
    rw [htid] at hone
    exact hone
  · exact h6

/-- C2 (witness): after one `setStatus` from the empty store, the created
books row owns exactly one status row. -/
theorem library_invariant_book_iff_status_witness :
    ((applyOps [LibOp.setStatus "OL1W" "to_read" "Book One" ["Author A"] none none "T1"]
        initState).statuses.filter (fun t => t.book_id ==
          (⟨1, "OL1W", "Book One", jsonDumps ["Author A"], none, none, "T1"⟩
            : BookRow).id)).length = 1 :=
  (library_invariant_book_iff_status
    [LibOp.setStatus "OL1W" "to_read" "Book One" ["Author A"] none none "T1"]).1
    ⟨1, "OL1W", "Book One", jsonDumps ["Author A"], none, none, "T1"⟩ (by decide)

end NeeReads
